import Mathlib

/-!
# Verification of the tui-explorer navigation / listing / preview core

Shallow embedding of `src/app.py` (a three-pane terminal file manager).

Modelling conventions:
* Filesystem state is passed explicitly: a directory enumeration
  (`Path.iterdir`) becomes an `Except Unit (List Entry)` argument where
  `.error ()` stands for `PermissionError`; per-path metadata used by the
  preview pane becomes a `PathInfo` record.
* Python's builtin `sorted` (a stable sort) is modelled by `pySorted`, a
  stable insertion sort taking the boolean comparator `entryLE`, which is
  the lexicographic order on the sort key `(not p.is_dir(), p.name.lower())`
  used at every `sorted(...)` call site in the source.
* `str.lower` is modelled by `pyLower` (ASCII case folding, which is exact
  for every string appearing in the claims), string comparison by the
  code-point lexicographic order `strLeB` (exactly Python's `str` order),
  `bytes.decode("utf-8", errors="replace")` by `utf8DecodeReplace`
  (WHATWG maximal-subpart replacement, matching CPython), and
  `str.splitlines` by `pySplitlines`.
* Rich-markup rendering (colors, `escape`, reverse-video of the cursor
  row) is a styling concern the widgets apply around the data computed
  here; renders are therefore modelled as small inductive results carrying
  exactly the data that distinguishes the source's return branches.
-/

namespace TuiExplorer

/-- ASCII lowercasing of one character; models `str.lower` per character
(Python lowercases beyond ASCII as well, but the claims only involve
ASCII names). -/
def lowerChar (c : Char) : Char :=
  if 65 ≤ c.toNat ∧ c.toNat ≤ 90 then Char.ofNat (c.toNat + 32) else c

/-- Models Python `s.lower()`. -/
def pyLower (s : String) : String :=
  String.mk (s.data.map lowerChar)

/-- Code-point lexicographic comparison on character lists; this is the
order Python uses to compare `str` values. -/
def charsLe : List Char → List Char → Bool
  | [], _ => true
  | _ :: _, [] => false
  | a :: as, b :: bs =>
    if a.toNat < b.toNat then true
    else if b.toNat < a.toNat then false
    else charsLe as bs

/-- Models Python `s1 <= s2` on strings. -/
def strLeB (a b : String) : Bool :=
  charsLe a.data b.data

/-- Models Python `name.startswith(".")`, the hidden-file test used by all
three panes. -/
def startsWithDot (s : String) : Bool :=
  match s.data with
  | [] => false
  | c :: _ => c == '.'

/-- One immediate child of a listed directory, as observed by
`Path.iterdir` plus the `is_dir` probe: its name, whether `p.is_dir()`
holds, and its absolute path string (used by `Path` equality tests such as
`entry == self.current_dir` / `e == old`). -/
structure Entry where
  name : String
  isDir : Bool
  path : String
deriving DecidableEq, Repr

/-- The comparator induced by the sort key
`lambda p: (not p.is_dir(), p.name.lower())` (ascending lexicographic
tuple order, `False < True`): directories strictly precede
non-directories, ties resolved by lowercased-name string order. -/
def entryLE (a b : Entry) : Bool :=
  if a.isDir = b.isDir then strLeB (pyLower a.name) (pyLower b.name) else a.isDir

/-- Stable insertion of `a` into a sorted list: `a` is placed before the
first element it compares `le` to, hence before later equal-key elements
(stability). -/
def insertSorted (le : α → α → Bool) (a : α) : List α → List α
  | [] => [a]
  | b :: bs => if le a b then a :: b :: bs else b :: insertSorted le a bs

/-- Models Python's builtin `sorted` (guaranteed stable) under the boolean
comparator `le`: a stable insertion sort.  Any stable sort agrees with
Python's on a total transitive comparator. -/
def pySorted (le : α → α → Bool) : List α → List α
  | [] => []
  | a :: as => insertSorted le a (pySorted le as)

/-- `FileList.get_entries`: sort the `iterdir` result by
`(not p.is_dir(), p.name.lower())`, returning `[]` on `PermissionError`,
then drop dot-names when `show_hidden` is off (filter applied after the
sort, as in the source). -/
def get_entries (iterResult : Except Unit (List Entry)) (show_hidden : Bool) :
    List Entry :=
  match iterResult with
  | .error _ => []
  | .ok contents =>
    let entries := pySorted entryLE contents
    if show_hidden then entries
    else entries.filter (fun e => !(startsWithDot e.name))

/-- Modelled from the spec's wording (§4.1: the hidden-name filter "is
applied *before* sorting"): the same catalog with filter and sort in the
spec's order, for comparison with `get_entries`. -/
def get_entries_spec_order (contents : List Entry) (show_hidden : Bool) :
    List Entry :=
  let kept :=
    if show_hidden then contents
    else contents.filter (fun e => !(startsWithDot e.name))
  pySorted entryLE kept

/-- `FileList.selected_path`: the entry under the cursor when
`0 <= self.cursor < len(entries)`, else `None`.  (`cursor` is a
non-negative reactive value in the source, modelled as `Nat`.) -/
def selected_path (entries : List Entry) (cursor : Nat) : Option Entry :=
  if h : cursor < entries.length then some (entries.get ⟨cursor, h⟩) else none

/-- The cursor clamp in `Explorer._refresh_view`:
`if fl.cursor >= len(entries): fl.cursor = max(0, len(entries) - 1)`
(`Nat` subtraction saturates exactly like `max(0, n - 1)`). -/
def refresh_clamp (cursor n : Nat) : Nat :=
  if n ≤ cursor then n - 1 else cursor

/-- Cursor effect of `Explorer.action_cursor_down`
(`if fl.cursor < len(entries) - 1: fl.cursor += 1`; for `n = 0` Python's
`-1` and the saturating `n - 1` both make the guard false). -/
def action_cursor_down (cursor n : Nat) : Nat :=
  if cursor < n - 1 then cursor + 1 else cursor

/-- Cursor effect of `Explorer.action_cursor_up`. -/
def action_cursor_up (cursor : Nat) : Nat :=
  if 0 < cursor then cursor - 1 else cursor

/-- Cursor effect of `Explorer.action_go_top` (`fl.cursor = 0`). -/
def action_go_top : Nat := 0

/-- Cursor effect of `Explorer.action_go_bottom`
(`if entries: fl.cursor = len(entries) - 1`). -/
def action_go_bottom (cursor n : Nat) : Nat :=
  if n ≠ 0 then n - 1 else cursor

/-- `Explorer.action_parent_dir` together with the reactive cascade it
triggers: assigning `self.current_dir = parent` fires
`FileList.watch_current_dir`, which resets the cursor to `0`; the action
then scans the freshly computed listing for the directory just left
(`Path` equality `e == old`) and moves the cursor to its index when found.
When `parent == current` (filesystem root) nothing happens.  Returns the
resulting `(current_dir, cursor)` pair. -/
def action_parent_dir (current par : String) (cursor : Nat)
    (newEntries : List Entry) : String × Nat :=
  if par = current then (current, cursor)
  else
    match newEntries.findIdx? (fun e => decide (e.path = current)) with
    | some i => (par, i)
    | none => (par, 0)

/-- The observably distinct outcomes of `ParentPane.render_entries`. -/
inductive PaneRender where
  | selfPath (p : String)
  | permissionDenied
  | listing (entries : List Entry)
deriving DecidableEq, Repr

/-- `ParentPane.render_entries`: show the current path itself at the
filesystem root; on `PermissionError` reading the parent directory return
the inline `"Permission denied"` message; otherwise the sorted (and, with
hidden off, filtered) parent listing. -/
def render_entries (current par : String)
    (iterResult : Except Unit (List Entry)) (show_hidden : Bool) :
    PaneRender :=
  if par = current then .selfPath current
  else
    match iterResult with
    | .error _ => .permissionDenied
    | .ok contents =>
      let entries := pySorted entryLE contents
      .listing
        (if show_hidden then entries
         else entries.filter (fun e => !(startsWithDot e.name)))

/-- The observably distinct outcomes of `FileList.render_list`. -/
inductive ListRender where
  | emptyDirMessage
  | rows (entries : List Entry) (cursor : Nat)
deriving DecidableEq, Repr

/-- `FileList.render_list`: the `"Empty directory"` placeholder when
`get_entries` comes back empty, else one row per entry with the cursor row
highlighted (row details are styling; the rendered data is the entry list
and cursor index). -/
def render_list (iterResult : Except Unit (List Entry)) (show_hidden : Bool)
    (cursor : Nat) : ListRender :=
  let entries := get_entries iterResult show_hidden
  if entries.isEmpty then .emptyDirMessage else .rows entries cursor

/-- `PreviewPane.MAX_PREVIEW_LINES`. -/
def MAX_PREVIEW_LINES : Nat := 80

/-- `PreviewPane.MAX_LINE_LEN`. -/
def MAX_LINE_LEN : Nat := 200

/-- `PreviewPane.MAX_PREVIEW_BYTES` (64 KiB). -/
def MAX_PREVIEW_BYTES : Nat := 64 * 1024

/-- `PreviewPane.BINARY_EXTENSIONS` (membership testing is all the source
does with the frozenset, so a list models it). -/
def BINARY_EXTENSIONS : List String :=
  [".png", ".jpg", ".jpeg", ".gif", ".bmp", ".ico", ".webp", ".tiff", ".tif",
   ".svg", ".mp3", ".mp4", ".mkv", ".avi", ".mov", ".flac", ".wav", ".ogg",
   ".webm", ".zip", ".tar", ".gz", ".bz2", ".xz", ".zst", ".7z", ".rar",
   ".pdf", ".doc", ".docx", ".xls", ".xlsx", ".ppt", ".pptx",
   ".so", ".dylib", ".dll", ".exe", ".o", ".a", ".pyc", ".pyo",
   ".woff", ".woff2", ".ttf", ".otf", ".eot",
   ".db", ".sqlite", ".sqlite3",
   ".bin", ".dat", ".iso", ".img"]

/-- The replacement character U+FFFD. -/
def replacementChar : Char := Char.ofNat 0xFFFD

/-- One decoding step of the UTF-8 decoder with replacement: given a lead
byte `b` and the bytes after it, produce the decoded character (U+FFFD for
a maximal invalid subpart) and how many continuation bytes beyond `b` were
consumed. -/
def utf8DecodeStep (b : Nat) (bs : List Nat) : Char × Nat :=
  if b < 0x80 then (Char.ofNat b, 0)
  else if b < 0xC2 then (replacementChar, 0)
  else if b < 0xE0 then
    match bs with
    | [] => (replacementChar, 0)
    | b2 :: _ =>
      if 0x80 ≤ b2 ∧ b2 < 0xC0 then
        (Char.ofNat ((b - 0xC0) * 0x40 + (b2 - 0x80)), 1)
      else (replacementChar, 0)
  else if b < 0xF0 then
    match bs with
    | [] => (replacementChar, 0)
    | b2 :: bs2 =>
      if (if b = 0xE0 then 0xA0 else 0x80) ≤ b2 ∧
          b2 < (if b = 0xED then 0xA0 else 0xC0) then
        match bs2 with
        | [] => (replacementChar, 1)
        | b3 :: _ =>
          if 0x80 ≤ b3 ∧ b3 < 0xC0 then
            (Char.ofNat ((b - 0xE0) * 0x1000 + (b2 - 0x80) * 0x40 + (b3 - 0x80)), 2)
          else (replacementChar, 1)
      else (replacementChar, 0)
  else if b < 0xF5 then
    match bs with
    | [] => (replacementChar, 0)
    | b2 :: bs2 =>
      if (if b = 0xF0 then 0x90 else 0x80) ≤ b2 ∧
          b2 < (if b = 0xF4 then 0x90 else 0xC0) then
        match bs2 with
        | [] => (replacementChar, 1)
        | b3 :: bs3 =>
          if 0x80 ≤ b3 ∧ b3 < 0xC0 then
            match bs3 with
            | [] => (replacementChar, 2)
            | b4 :: _ =>
              if 0x80 ≤ b4 ∧ b4 < 0xC0 then
                (Char.ofNat ((b - 0xF0) * 0x40000 + (b2 - 0x80) * 0x1000 +
                    (b3 - 0x80) * 0x40 + (b4 - 0x80)), 3)
              else (replacementChar, 2)
          else (replacementChar, 1)
      else (replacementChar, 0)
  else (replacementChar, 0)

/-- Decoding loop, structurally recursive on a fuel bound; every step
consumes at least the lead byte, so fuel `length + 1` never runs out. -/
def utf8DecodeGo : Nat → List Nat → List Char
  | 0, _ => []
  | _ + 1, [] => []
  | fuel + 1, b :: bs =>
    let s := utf8DecodeStep b bs
    s.1 :: utf8DecodeGo fuel (bs.drop s.2)

/-- Models `bytes.decode("utf-8", errors="replace")` on a byte list:
standard UTF-8 decoding where every maximal invalid subpart becomes one
U+FFFD (CPython's replacement behaviour).  Bytes are `Nat` values
`< 256`. -/
def utf8DecodeReplace (bs : List Nat) : List Char :=
  utf8DecodeGo (bs.length + 1) bs

/-- The line-boundary characters of Python `str.splitlines`. -/
def pyLineBreaks : List Char :=
  ['\n', '\r', '\x0b', '\x0c', '\x1c', '\x1d', '\x1e', '\u0085', '\u2028', '\u2029']

def pySplitlinesAux : List Char → List Char → List (List Char)
  | acc, [] => if acc.isEmpty then [] else [acc.reverse]
  | acc, '\r' :: '\n' :: rest => acc.reverse :: pySplitlinesAux [] rest
  | acc, c :: rest =>
    if pyLineBreaks.contains c then acc.reverse :: pySplitlinesAux [] rest
    else pySplitlinesAux (c :: acc) rest

/-- Models Python `text.splitlines()` (no trailing empty line, `"\r\n"`
counts as one boundary). -/
def pySplitlines (text : List Char) : List (List Char) :=
  pySplitlinesAux [] text

/-- The slice of filesystem facts `PreviewPane.render_preview` consults
about `self.preview_path`: existence, `is_dir`, `path.suffix`, the
`iterdir` result for directories (`none` = `PermissionError`), the
`stat().st_size` result (`none` = `OSError`), and the `read_bytes` result
(`none` = any read exception). -/
structure PathInfo where
  present : Bool
  isDir : Bool
  suffix : String
  children : Option (List Entry)
  size : Option Nat
  bytes : Option (List Nat)
deriving DecidableEq, Repr

/-- The observably distinct outcomes of `PreviewPane.render_preview`
(the metadata header line is prepended separately in the source and is
orthogonal to every branch below). -/
inductive Preview where
  | blank
  | notExist
  | permissionDenied
  | dirListing (shown : List Entry) (extra : Nat)
  | binaryExt (suffix : String)
  | tooLarge (size : Nat)
  | binaryNul
  | textBody (lines : List (List Char))
  | cannotRead
deriving DecidableEq, Repr

/-- `PreviewPane.render_preview`, branch for branch:
empty output for `None`; `"Path does not exist"`; directory listing
(same sort and hidden filter as the panes, capped at 50 shown entries plus
an overflow count); the binary-extension short-circuit; the 64 KiB size
gate (a failed `stat` counts as size 0); `read_bytes` failure; the NUL
probe of the first 1024 bytes; finally decode / splitlines / cap at 80
lines of at most 200 characters. -/
def render_preview (show_hidden : Bool) (p : Option PathInfo) : Preview :=
  match p with
  | none => .blank
  | some info =>
    if !info.present then .notExist
    else if info.isDir then
      match info.children with
      | none => .permissionDenied
      | some contents =>
        let entries := pySorted entryLE contents
        let entries :=
          if show_hidden then entries
          else entries.filter (fun e => !(startsWithDot e.name))
        .dirListing (entries.take 50)
          (if 50 < entries.length then entries.length - 50 else 0)
    else if BINARY_EXTENSIONS.contains (pyLower info.suffix) then
      .binaryExt info.suffix
    else
      let file_size := info.size.getD 0
      if MAX_PREVIEW_BYTES < file_size then .tooLarge file_size
      else
        match info.bytes with
        | none => .cannotRead
        | some bs =>
          let raw := bs.take MAX_PREVIEW_BYTES
          if (raw.take 1024).contains 0 then .binaryNul
          else
            let text := utf8DecodeReplace raw
            let lines := (pySplitlines text).take MAX_PREVIEW_LINES
            .textBody (lines.map (fun ln => ln.take MAX_LINE_LEN))

/-- The session-long navigation state (`Explorer.current_dir`,
`FileList.cursor`, `Explorer.show_hidden`). -/
structure NavState where
  current_dir : String
  cursor : Nat
  show_hidden : Bool
deriving DecidableEq, Repr

/-- Filesystem rejections a mutation can raise. -/
inductive FsError where
  | alreadyExists
  | ioError
deriving DecidableEq, Repr

/-- `Explorer._refresh_view`: resync, then clamp the cursor against the
freshly recomputed listing. -/
def refresh_view (st : NavState) (entriesAfter : List Entry) : NavState :=
  ⟨st.current_dir, refresh_clamp st.cursor entriesAfter.length, st.show_hidden⟩

/-- The `on_result` callback of `Explorer.action_rename`:
`if new_name and new_name != selected.name: selected.rename(...);
self._refresh_view()`.  `fsResult` is the outcome of the `rename` call;
the source wraps it in no `try`, so `.error` aborts the callback before
`_refresh_view` runs and the exception escapes.  Returns the resulting
state and the escaping exception, if any. -/
def rename_on_result (st : NavState) (selName : String)
    (fsResult : Except FsError Unit) (entriesAfter : List Entry)
    (new_name : Option String) : NavState × Option FsError :=
  match new_name with
  | none => (st, none)
  | some nn =>
    if nn ≠ "" ∧ nn ≠ selName then
      match fsResult with
      | .error e => (st, some e)
      | .ok _ => (refresh_view st entriesAfter, none)
    else (st, none)

/-- The `on_result` callback of `Explorer.action_create`:
`if name:` (a non-empty string after the dialog's strip), then
`mkdir(exist_ok=True)` when the name ends with `"/"` else `touch()` —
`fsResult` is the outcome of whichever of the two calls the
`endswith("/")` dispatch selected — and only afterwards
`self._refresh_view()`.  No `try` wraps the call, so `.error` aborts the
callback before any resync and the exception escapes. -/
def create_on_result (st : NavState) (fsResult : Except FsError Unit)
    (entriesAfter : List Entry) (name : Option String) :
    NavState × Option FsError :=
  match name with
  | none => (st, none)
  | some nm =>
    if nm ≠ "" then
      match fsResult with
      | .error e => (st, some e)
      | .ok _ => (refresh_view st entriesAfter, none)
    else (st, none)

/-- The `on_result` callback of `Explorer.action_delete`: on confirmation
run `rmtree`/`unlink` (outcome `fsResult`, again with no `try` around it)
and only then `_refresh_view`. -/
def delete_on_result (st : NavState) (fsResult : Except FsError Unit)
    (entriesAfter : List Entry) (confirmed : Bool) :
    NavState × Option FsError :=
  if confirmed then
    match fsResult with
    | .error e => (st, some e)
    | .ok _ => (refresh_view st entriesAfter, none)
  else (st, none)

/-- What `Explorer.action_delete` knows about the selected path when it
dispatches: whether it is itself a directory, whether it is a symlink, and
whether a symlink's target is a directory. -/
structure DeleteTarget where
  isRealDir : Bool
  isSymlink : Bool
  targetIsDir : Bool
deriving DecidableEq, Repr

/-- Models `pathlib.Path.is_dir()`, which follows symlinks: true for a
directory proper and for a symlink whose target is a directory. -/
def path_is_dir (t : DeleteTarget) : Bool :=
  t.isRealDir || (t.isSymlink && t.targetIsDir)

/-- The two removal branches of `Explorer.action_delete`. -/
inductive DeleteBranch where
  | rmtree
  | unlink
deriving DecidableEq, Repr

/-- The dispatch `if selected.is_dir(): shutil.rmtree(selected) else:
selected.unlink()`. -/
def delete_branch (t : DeleteTarget) : DeleteBranch :=
  if path_is_dir t then .rmtree else .unlink

/-- The `b.txt` regular file of the spec's §8 listing scenario. -/
def entryBTxt : Entry := ⟨"b.txt", false, "/tmp/x/b.txt"⟩

/-- The `A` directory of the spec's §8 listing scenario. -/
def entryADir : Entry := ⟨"A", true, "/tmp/x/A"⟩

/-- The `.hidden` regular file of the spec's §8 listing scenario. -/
def entryHidden : Entry := ⟨".hidden", false, "/tmp/x/.hidden"⟩

/-- An empty `.txt` file: passes every text-preview gate yet previews to
an empty body. -/
def emptyTxtFile : PathInfo := ⟨true, false, ".txt", none, some 0, some []⟩

/-- A `.png`-named file whose two content bytes `0xC3 0x28` are invalid
UTF-8: the extension short-circuit masks the undecodable content. -/
def badPngFile : PathInfo :=
  ⟨true, false, ".png", none, some 2, some [0xC3, 0x28]⟩

/-- A small readable text file with content bytes `"hi\n"`. -/
def hiTxtFile : PathInfo :=
  ⟨true, false, ".txt", none, some 3, some [104, 105, 10]⟩

/-- A directory whose enumeration raises `PermissionError`. -/
def deniedDir : PathInfo := ⟨true, true, "", none, some 4096, none⟩

/-- A parent-directory listing containing the directory `/tmp/x` that an
Ascend from `/tmp/x` just left. -/
def demoParentListing : List Entry :=
  [⟨"w", true, "/tmp/w"⟩, ⟨"x", true, "/tmp/x"⟩, ⟨"y", false, "/tmp/y"⟩]

/-- A symbolic link whose target is a directory (the entry itself is not a
directory). -/
def symlinkToDir : DeleteTarget := ⟨false, true, true⟩

/-- The ordering property claimed for listings: directories precede
non-directories, and entries of the same kind are ascending by lowercased
name. -/
def entryOrdered (a b : Entry) : Prop :=
  (b.isDir = true → a.isDir = true)
  ∧ (a.isDir = b.isDir → strLeB (pyLower a.name) (pyLower b.name) = true)

/-! ## Order-theoretic facts about the sort comparator -/

theorem charsLe_total : ∀ a b : List Char, charsLe a b = true ∨ charsLe b a = true
  | [], _ => Or.inl rfl
  | _ :: _, [] => Or.inr rfl
  | a :: as, b :: bs => by
    rcases Nat.lt_trichotomy a.toNat b.toNat with h | h | h
    · left
      simp [charsLe, h]
    · rcases charsLe_total as bs with ih | ih
      · left
        simp [charsLe, h, ih]
      · right
        simp [charsLe, h.symm, ih]
    · right
      simp [charsLe, h]

theorem charsLe_trans :
    ∀ a b c : List Char, charsLe a b = true → charsLe b c = true →
      charsLe a c = true
  | [], _, _, _, _ => rfl
  | _ :: _, [], _, h, _ => by simp [charsLe] at h
  | _ :: _, _ :: _, [], _, h2 => by simp [charsLe] at h2
  | a :: as, b :: bs, c :: cs, h1, h2 => by
    simp only [charsLe] at h1 h2 ⊢
    split_ifs at h1 h2 ⊢ <;>
      first
        | rfl
        | omega
        | exact charsLe_trans as bs cs h1 h2

theorem strLeB_total (a b : String) : strLeB a b = true ∨ strLeB b a = true :=
  charsLe_total a.data b.data

theorem strLeB_trans (a b c : String) (h1 : strLeB a b = true)
    (h2 : strLeB b c = true) : strLeB a c = true :=
  charsLe_trans a.data b.data c.data h1 h2

theorem entryLE_total (a b : Entry) : entryLE a b = true ∨ entryLE b a = true := by
  unfold entryLE
  by_cases h : a.isDir = b.isDir
  · rw [if_pos h, if_pos h.symm]
    exact strLeB_total (pyLower a.name) (pyLower b.name)
  · rw [if_neg h, if_neg (Ne.symm h)]
    cases ha : a.isDir <;> cases hb : b.isDir <;> simp_all

theorem entryLE_trans (a b c : Entry) (h1 : entryLE a b = true)
    (h2 : entryLE b c = true) : entryLE a c = true := by
  unfold entryLE at h1 h2 ⊢
  cases ha : a.isDir <;> cases hb : b.isDir <;> cases hc : c.isDir <;>
    simp_all <;>
    exact strLeB_trans _ _ _ h1 h2

theorem entryLE_imp_entryOrdered (a b : Entry) (h : entryLE a b = true) :
    entryOrdered a b := by
  unfold entryLE at h
  by_cases hd : a.isDir = b.isDir
  · rw [if_pos hd] at h
    exact ⟨fun hb => hd ▸ hb, fun _ => h⟩
  · rw [if_neg hd] at h
    exact ⟨fun _ => h, fun hEq => absurd hEq hd⟩

/-! ## Stable insertion sort: sortedness and filter commutation -/

theorem mem_insertSorted (le : α → α → Bool) (a x : α) :
    ∀ l : List α, x ∈ insertSorted le a l ↔ x = a ∨ x ∈ l
  | [] => by simp [insertSorted]
  | b :: bs => by
    rw [insertSorted]
    by_cases h : le a b = true
    · rw [if_pos h]
      simp [List.mem_cons]
    · rw [if_neg h]
      simp only [List.mem_cons, mem_insertSorted le a x bs]
      tauto

theorem insertSorted_cons_of_le (le : α → α → Bool) (a : α) :
    ∀ l : List α, (∀ x ∈ l, le a x = true) → insertSorted le a l = a :: l
  | [], _ => rfl
  | b :: bs, h => by
    rw [insertSorted, if_pos (h b (List.mem_cons_self b bs))]

theorem pairwise_insertSorted (le : α → α → Bool)
    (htrans : ∀ x y z, le x y = true → le y z = true → le x z = true)
    (htotal : ∀ x y, le x y = true ∨ le y x = true) (a : α) :
    ∀ l : List α, l.Pairwise (fun x y => le x y = true) →
      (insertSorted le a l).Pairwise (fun x y => le x y = true)
  | [], _ => by simp [insertSorted]
  | b :: bs, h => by
    rw [List.pairwise_cons] at h
    obtain ⟨hb, hbs⟩ := h
    rw [insertSorted]
    by_cases hab : le a b = true
    · rw [if_pos hab]
      refine List.Pairwise.cons ?_ (List.Pairwise.cons hb hbs)
      intro x hx
      rcases List.mem_cons.mp hx with hxb | hx'
      · rw [hxb]
        exact hab
      · exact htrans a b x hab (hb x hx')
    · rw [if_neg hab]
      refine List.Pairwise.cons ?_ (pairwise_insertSorted le htrans htotal a bs hbs)
      intro x hx
      rcases (mem_insertSorted le a x bs).mp hx with hxa | hx'
      · rw [hxa]
        rcases htotal a b with h | h
        · exact absurd h hab
        · exact h
      · exact hb x hx'

theorem pairwise_pySorted (le : α → α → Bool)
    (htrans : ∀ x y z, le x y = true → le y z = true → le x z = true)
    (htotal : ∀ x y, le x y = true ∨ le y x = true) :
    ∀ l : List α, (pySorted le l).Pairwise (fun x y => le x y = true)
  | [] => List.Pairwise.nil
  | a :: as =>
    pairwise_insertSorted le htrans htotal a (pySorted le as)
      (pairwise_pySorted le htrans htotal as)

theorem filter_insertSorted (le : α → α → Bool)
    (htrans : ∀ x y z, le x y = true → le y z = true → le x z = true)
    (p : α → Bool) (a : α) :
    ∀ l : List α, l.Pairwise (fun x y => le x y = true) →
      (insertSorted le a l).filter p =
        if p a then insertSorted le a (l.filter p) else l.filter p
  | [], _ => by
    by_cases hpa : p a = true <;>
      simp [insertSorted, List.filter, hpa]
  | b :: bs, h => by
    rw [List.pairwise_cons] at h
    obtain ⟨hb, hbs⟩ := h
    by_cases hab : le a b = true
    · rw [insertSorted, if_pos hab]
      by_cases hpa : p a = true
      · rw [if_pos hpa, List.filter_cons, if_pos hpa]
        rw [insertSorted_cons_of_le]
        intro x hx
        rcases List.mem_cons.mp (List.mem_of_mem_filter hx) with hxb | hx'
        · rw [hxb]
          exact hab
        · exact htrans a b x hab (hb x hx')
      · rw [if_neg hpa, List.filter_cons, if_neg hpa]
    · rw [insertSorted, if_neg hab]
      by_cases hpb : p b = true
      · rw [List.filter_cons, if_pos hpb]
        rw [filter_insertSorted le htrans p a bs hbs]
        by_cases hpa : p a = true
        · rw [if_pos hpa, if_pos hpa, List.filter_cons, if_pos hpb, insertSorted,
            if_neg hab]
        · rw [if_neg hpa, if_neg hpa, List.filter_cons, if_pos hpb]
      · rw [List.filter_cons, if_neg hpb]
        rw [filter_insertSorted le htrans p a bs hbs]
        by_cases hpa : p a = true
        · rw [if_pos hpa, if_pos hpa, List.filter_cons, if_neg hpb]
        · rw [if_neg hpa, if_neg hpa, List.filter_cons, if_neg hpb]

theorem filter_pySorted (le : α → α → Bool)
    (htrans : ∀ x y z, le x y = true → le y z = true → le x z = true)
    (htotal : ∀ x y, le x y = true ∨ le y x = true) (p : α → Bool) :
    ∀ l : List α, (pySorted le l).filter p = pySorted le (l.filter p)
  | [] => rfl
  | a :: as => by
    rw [pySorted,
      filter_insertSorted le htrans p a (pySorted le as)
        (pairwise_pySorted le htrans htotal as),
      filter_pySorted le htrans htotal p as, List.filter_cons]
    by_cases hpa : p a = true
    · rw [if_pos hpa, if_pos hpa, pySorted]
    · rw [if_neg hpa, if_neg hpa]

/-! ## Characterisation of the cursor-placement scan -/

theorem findIdx?_none_of_all (p : α → Bool) :
    ∀ (l : List α) (i : Nat), (∀ x ∈ l, p x = false) → l.findIdx? p i = none
  | [], _, _ => rfl
  | a :: as, i, h => by
    rw [List.findIdx?_cons, h a (List.mem_cons_self a as)]
    simp only [Bool.false_eq_true, if_false]
    exact findIdx?_none_of_all p as (i + 1) fun x hx =>
      h x (List.mem_cons_of_mem a hx)

theorem findIdx?_first (p : α → Bool) :
    ∀ (l : List α) (i : Nat) (h : i < l.length),
      p l[i] = true →
      (∀ j (_ : j < i), p l[j] = false) →
      l.findIdx? p = some i
  | a :: as, 0, _, hp, _ => by
    simp only [List.getElem_cons_zero] at hp
    simp [List.findIdx?_cons, hp]
  | a :: as, i + 1, h, hp, hj => by
    have ha : p a = false := by
      have := hj 0 (Nat.succ_pos i)
      simpa using this
    have hlen : i < as.length := by
      simpa using h
    have tail : as.findIdx? p = some i := by
      refine findIdx?_first p as i hlen (by simpa using hp) ?_
      intro j hj2
      have := hj (j + 1) (by omega)
      simpa using this
    rw [List.findIdx?_cons, ha]
    simp only [Bool.false_eq_true, if_false]
    rw [List.findIdx?_succ, tail]
    rfl

/-! ## Claim theorems -/

/-- C1: after the resynchronization cursor clamp of `_refresh_view` the
cursor index is a valid index of the current listing whenever the listing
is non-empty, and `selected_path` returns no selection exactly when the
listing is empty; the navigation transitions preserve validity of the
cursor on their own. -/
theorem c1_resync_cursor_invariant (cursor : Nat) (entries : List Entry) :
    (entries ≠ [] → refresh_clamp cursor entries.length < entries.length)
    ∧ (selected_path entries (refresh_clamp cursor entries.length) = none ↔
        entries = [])
    ∧ (∀ n, cursor < n →
        action_cursor_down cursor n < n ∧ action_cursor_up cursor < n ∧
        action_go_bottom cursor n < n ∧ action_go_top < n) := by
  have hmain : entries ≠ [] → refresh_clamp cursor entries.length < entries.length := by
    intro hne
    have h0 : entries.length ≠ 0 := by
      simpa [List.length_eq_zero] using hne
    unfold refresh_clamp
    split <;> omega
  refine ⟨hmain, ?_, ?_⟩
  · by_cases he : entries = []
    · subst he
      simp [selected_path, refresh_clamp]
    · have hc := hmain he
      simp [selected_path, dif_pos hc, he]
  · intro n hn
    unfold action_cursor_down action_cursor_up action_go_bottom action_go_top
    refine ⟨?_, ?_, ?_, ?_⟩ <;> first | (split <;> omega) | omega

/-- C1 witness: a concrete out-of-range cursor is clamped back into the
one-element listing and the selection is non-empty. -/
theorem c1_resync_cursor_invariant_witness :
    refresh_clamp 7 ([entryADir] : List Entry).length <
      ([entryADir] : List Entry).length
    ∧ (selected_path [entryADir] (refresh_clamp 7 ([entryADir] : List Entry).length)
        = none ↔ ([entryADir] : List Entry) = []) :=
  ⟨(c1_resync_cursor_invariant 7 [entryADir]).1 (by decide),
   (c1_resync_cursor_invariant 7 [entryADir]).2.1⟩

/-- C2: every listing `get_entries` produces — for any enumeration
outcome and either hidden flag — is ordered with directories before
non-directories and, within each kind, ascending lowercased names. -/
theorem c2_listing_sorted (r : Except Unit (List Entry)) (sh : Bool) :
    (get_entries r sh).Pairwise entryOrdered := by
  cases r with
  | error e =>
    simp [get_entries]
  | ok c =>
    have base : (pySorted entryLE c).Pairwise entryOrdered :=
      (pairwise_pySorted entryLE entryLE_trans entryLE_total c).imp
        (fun h => entryLE_imp_entryOrdered _ _ h)
    cases sh with
    | false =>
      simpa [get_entries] using List.Pairwise.sublist (List.filter_sublist _) base
    | true =>
      simpa [get_entries] using base

/-- C3: dropping hidden names commutes with sorting — the hidden-off
listing is exactly the hidden-on listing with dot-names removed (order
preserved), and filtering before the sort (the spec's order of
operations) produces the same sequence as the source's filter-after-sort. -/
theorem c3_hidden_filter_commutes (c : List Entry) (sh : Bool) :
    get_entries (.ok c) false
      = (get_entries (.ok c) true).filter (fun e => !(startsWithDot e.name))
    ∧ get_entries_spec_order c sh = get_entries (.ok c) sh := by
  constructor
  · rfl
  · cases sh with
    | false =>
      simp only [get_entries, get_entries_spec_order]
      exact
        (filter_pySorted entryLE entryLE_trans entryLE_total
          (fun e => !(startsWithDot e.name)) c).symm
    | true => rfl

/-- C4: Ascend is a no-op exactly when the parent equals the current path
(path equality); otherwise the current directory becomes the parent and
the cursor lands on the index of the directory just left when it occurs in
the new listing, and on 0 when it does not. -/
theorem c4_ascend_behavior (current par : String) (cursor : Nat)
    (entries : List Entry) :
    (par = current → action_parent_dir current par cursor entries = (current, cursor))
    ∧ (par ≠ current →
        (action_parent_dir current par cursor entries).1 = par
        ∧ ((∀ e ∈ entries, e.path ≠ current) →
            (action_parent_dir current par cursor entries).2 = 0)
        ∧ (∀ i, (h : i < entries.length) → entries[i].path = current →
            (∀ j, (_ : j < i) → entries[j].path ≠ current) →
            (action_parent_dir current par cursor entries).2 = i)) := by
  constructor
  · intro h
    simp [action_parent_dir, h]
  · intro h
    refine ⟨?_, ?_, ?_⟩
    · unfold action_parent_dir
      rw [if_neg h]
      cases hfind : entries.findIdx? (fun e => decide (e.path = current)) <;>
        simp [hfind]
    · intro hall
      have hnone : entries.findIdx? (fun e => decide (e.path = current)) = none :=
        findIdx?_none_of_all _ entries 0 fun x hx => by
          simpa using hall x hx
      unfold action_parent_dir
      rw [if_neg h, hnone]
    · intro i hi hp hj
      have hsome : entries.findIdx? (fun e => decide (e.path = current)) = some i := by
        refine findIdx?_first _ entries i hi (by simpa using hp) ?_
        intro j hj2
        simpa using hj j hj2
      unfold action_parent_dir
      rw [if_neg h, hsome]

/-- C4 witness: at the root Ascend changes nothing, and ascending from
`/tmp/x` to `/tmp` puts the cursor on `/tmp/x` at index 1 of the new
listing. -/
theorem c4_ascend_behavior_witness :
    action_parent_dir "/tmp" "/tmp" 3 [] = ("/tmp", 3)
    ∧ (action_parent_dir "/tmp/x" "/tmp" 3 demoParentListing).2 = 1 :=
  ⟨(c4_ascend_behavior "/tmp" "/tmp" 3 []).1 rfl,
   ((c4_ascend_behavior "/tmp/x" "/tmp" 3 demoParentListing).2 (by decide)).2.2 1
     (by decide) (by decide) (fun j hj => by
       have hj0 : j = 0 := by omega
       subst hj0
       show ("/tmp/w" : String) ≠ "/tmp/x"
       decide)⟩

/-- C5 counterexample: a `PermissionError` while enumerating the current
directory makes `FileList` render exactly the ordinary
`"Empty directory"` placeholder — `get_entries` absorbs the error into
`[]` and the render is indistinguishable from a genuinely empty
directory, so no inline permission-denied message replaces the current
listing. -/
theorem c5_counterexample :
    render_list (.error ()) true 0 = ListRender.emptyDirMessage
    ∧ render_list (.ok []) true 0 = ListRender.emptyDirMessage
    ∧ get_entries (.error ()) true = get_entries (.ok []) true :=
  ⟨rfl, rfl, rfl⟩

/-- C5 (amended): the parent pane and the directory preview surface
`PermissionError` as an inline permission-denied message, but the
current-directory listing (`FileList`) presents a permission-denied
directory as an ordinary empty listing. -/
theorem c5_permission_denied_surfacing (cur par : String) (sh : Bool)
    (cursor : Nat) (info : PathInfo) :
    (par ≠ cur → render_entries cur par (.error ()) sh = PaneRender.permissionDenied)
    ∧ render_list (.error ()) sh cursor = ListRender.emptyDirMessage
    ∧ (info.present = true → info.isDir = true → info.children = none →
        render_preview sh (some info) = Preview.permissionDenied) := by
  refine ⟨?_, ?_, ?_⟩
  · intro h
    simp [render_entries, h]
  · simp [render_list, get_entries]
  · intro h1 h2 h3
    simp [render_preview, h1, h2, h3]

/-- C5 witness: the amended behaviour at concrete inputs. -/
theorem c5_permission_denied_surfacing_witness :
    render_entries "/root" "/" (.error ()) true = PaneRender.permissionDenied
    ∧ render_list (.error ()) true 0 = ListRender.emptyDirMessage
    ∧ render_preview true (some deniedDir) = Preview.permissionDenied :=
  ⟨(c5_permission_denied_surfacing "/root" "/" true 0 deniedDir).1 (by decide),
   (c5_permission_denied_surfacing "/root" "/" true 0 deniedDir).2.1,
   (c5_permission_denied_surfacing "/root" "/" true 0 deniedDir).2.2 rfl rfl rfl⟩

/-- C6 counterexample: a failing rename leaves the handler with an
escaping exception (`some` error) — the error is propagated out of the
callback, not captured and surfaced as a notification (the source wraps
the filesystem call in no try/except and calls no notifier). -/
theorem c6_counterexample :
    (rename_on_result ⟨"/d", 0, true⟩ "a" (.error FsError.alreadyExists) []
        (some "b")).2 = some FsError.alreadyExists
    ∧ (rename_on_result ⟨"/d", 0, true⟩ "a" (.error FsError.alreadyExists) []
        (some "b")).2 ≠ none := by
  constructor
  · decide
  · decide

/-- C6 (amended): when a create, rename, or delete mutation is rejected
by the filesystem, `NavigationState` is left unchanged and no resync runs
(the result state is exactly the pre-state, not a refreshed one), but the
error escapes the handler uncaught instead of being captured as an error
notification. -/
theorem c6_mutation_failure_behavior (st : NavState) (selName : String)
    (e : FsError) (entries : List Entry) (nn : String)
    (hne : nn ≠ "") (hdiff : nn ≠ selName) :
    create_on_result st (.error e) entries (some nn) = (st, some e)
    ∧ rename_on_result st selName (.error e) entries (some nn) = (st, some e)
    ∧ delete_on_result st (.error e) entries true = (st, some e) := by
  refine ⟨?_, ?_, ?_⟩
  · simp [create_on_result, hne]
  · simp [rename_on_result, hne, hdiff]
  · simp [delete_on_result]

/-- C6 witness: the amended behaviour at a concrete failing create,
rename, and delete. -/
theorem c6_mutation_failure_behavior_witness :
    create_on_result ⟨"/d", 0, true⟩ (.error FsError.ioError) [] (some "b")
      = (⟨"/d", 0, true⟩, some FsError.ioError)
    ∧ rename_on_result ⟨"/d", 0, true⟩ "a" (.error FsError.ioError) [] (some "b")
      = (⟨"/d", 0, true⟩, some FsError.ioError)
    ∧ delete_on_result ⟨"/d", 0, true⟩ (.error FsError.ioError) [] true
      = (⟨"/d", 0, true⟩, some FsError.ioError) :=
  c6_mutation_failure_behavior ⟨"/d", 0, true⟩ "a" FsError.ioError [] "b"
    (by decide) (by decide)

/-- C7 counterexample: the empty `.txt` file passes every gate of the
claim (exists, regular, text extension, size ≤ 64 KiB, no NUL) yet its
preview body is the empty line list — the claimed non-emptiness of the
body fails. -/
theorem c7_counterexample :
    BINARY_EXTENSIONS.contains (pyLower emptyTxtFile.suffix) = false
    ∧ emptyTxtFile.size = some ([] : List Nat).length
    ∧ (([] : List Nat).take 1024).contains 0 = false
    ∧ render_preview true (some emptyTxtFile) = Preview.textBody [] := by
  refine ⟨by decide, rfl, rfl, rfl⟩

/-- C7 (amended): for an existing regular file within the 64 KiB budget,
with no NUL in its first 1 KiB and an extension outside the binary set,
the preview body is exactly the file's bytes decoded as UTF-8 with lossy
replacement, split into lines, capped at 80 lines of at most 200
characters each — a body that is empty when the file has no line content
(e.g. an empty file). -/
theorem c7_text_preview_pipeline (sh : Bool) (info : PathInfo) (bs : List Nat)
    (hpresent : info.present = true) (hdir : info.isDir = false)
    (hext : BINARY_EXTENSIONS.contains (pyLower info.suffix) = false)
    (hbytes : info.bytes = some bs)
    (hsize : info.size = some bs.length)
    (hlen : bs.length ≤ MAX_PREVIEW_BYTES)
    (hnul : (bs.take 1024).contains 0 = false) :
    render_preview sh (some info)
      = Preview.textBody
          (((pySplitlines (utf8DecodeReplace bs)).take MAX_PREVIEW_LINES).map
            (fun ln => ln.take MAX_LINE_LEN))
    ∧ (((pySplitlines (utf8DecodeReplace bs)).take MAX_PREVIEW_LINES).map
        (fun ln => ln.take MAX_LINE_LEN)).length ≤ MAX_PREVIEW_LINES
    ∧ ∀ ln ∈ ((pySplitlines (utf8DecodeReplace bs)).take MAX_PREVIEW_LINES).map
        (fun ln => ln.take MAX_LINE_LEN), ln.length ≤ MAX_LINE_LEN := by
  have hsz : info.size.getD 0 = bs.length := by
    rw [hsize]
    rfl
  have hnotbig : ¬ (MAX_PREVIEW_BYTES < info.size.getD 0) := by
    omega
  have htake : bs.take MAX_PREVIEW_BYTES = bs := List.take_of_length_le hlen
  have hext' : pyLower info.suffix ∉ BINARY_EXTENSIONS := by
    simpa using hext
  have hnul' : (0 : Nat) ∉ bs.take 1024 := by
    simpa using hnul
  refine ⟨?_, ?_, ?_⟩
  · simp [render_preview, hpresent, hdir, hext', hbytes, hnotbig, htake, hnul']
  · simp
  · intro ln hln
    obtain ⟨x, _, hxeq⟩ := List.mem_map.mp hln
    rw [← hxeq]
    exact List.length_take_le _ _

/-- C7 witness: the amended pipeline at the concrete file `"hi\n"`. -/
theorem c7_text_preview_pipeline_witness :
    render_preview true (some hiTxtFile) = Preview.textBody [['h', 'i']] := by
  have h := c7_text_preview_pipeline true hiTxtFile [104, 105, 10] rfl rfl
    (by decide) rfl rfl (by decide) rfl
  exact h.1.trans (by decide)

/-- C8: any existing non-directory path whose lowercased extension is in
the binary set previews to the binary-file sentinel, for every possible
size, content, and readability — the bytes are never consulted, so even
undecodable content yields the binary sentinel rather than a decode-error
sentinel. -/
theorem c8_binary_extension_short_circuit (sh : Bool) (info : PathInfo)
    (hpresent : info.present = true) (hdir : info.isDir = false)
    (hext : BINARY_EXTENSIONS.contains (pyLower info.suffix) = true) :
    render_preview sh (some info) = Preview.binaryExt info.suffix := by
  have hext' : pyLower info.suffix ∈ BINARY_EXTENSIONS := by
    simpa using hext
  simp [render_preview, hpresent, hdir, hext']

/-- C8 witness: a `.png` file whose bytes `0xC3 0x28` are invalid UTF-8
still previews to the binary sentinel. -/
theorem c8_binary_extension_short_circuit_witness :
    render_preview true (some badPngFile) = Preview.binaryExt badPngFile.suffix :=
  c8_binary_extension_short_circuit true badPngFile rfl rfl (by decide)

/-- C9 counterexample: for the directory holding `b.txt`, `A` (a
directory) and the file `.hidden`, the hidden-shown listing is
`[A, .hidden, b.txt]` — `"."` (0x2E) sorts before `"b"` (0x62) — not the
claimed `[A, b.txt, .hidden]`. -/
theorem c9_counterexample :
    get_entries (.ok [entryBTxt, entryADir, entryHidden]) true
      = [entryADir, entryHidden, entryBTxt]
    ∧ get_entries (.ok [entryBTxt, entryADir, entryHidden]) true
      ≠ [entryADir, entryBTxt, entryHidden] := by
  constructor
  · decide
  · decide

/-- C9 (amended): whatever order the enumeration yields the three entries
in, the listing with hidden shown is `[A, .hidden, b.txt]` (directories
first, then ascending lowercased name, under which `.hidden` precedes
`b.txt`), and with hidden off it is `[A, b.txt]`. -/
theorem c9_listing_scenario (l : List Entry)
    (hperm : l.Perm [entryBTxt, entryADir, entryHidden]) :
    get_entries (.ok l) true = [entryADir, entryHidden, entryBTxt]
    ∧ get_entries (.ok l) false = [entryADir, entryBTxt] := by
  have hmem : l ∈ List.permutations' [entryBTxt, entryADir, entryHidden] :=
    List.mem_permutations'.mpr hperm
  have heq : List.permutations' [entryBTxt, entryADir, entryHidden]
      = [[entryBTxt, entryADir, entryHidden], [entryADir, entryBTxt, entryHidden],
         [entryADir, entryHidden, entryBTxt], [entryBTxt, entryHidden, entryADir],
         [entryHidden, entryBTxt, entryADir], [entryHidden, entryADir, entryBTxt]] := by
    decide
  rw [heq] at hmem
  simp only [List.mem_cons, List.not_mem_nil, or_false] at hmem
  rcases hmem with rfl | rfl | rfl | rfl | rfl | rfl <;> constructor <;> decide

/-- C9 witness: the scenario at the identity enumeration order. -/
theorem c9_listing_scenario_witness :
    get_entries (.ok [entryBTxt, entryADir, entryHidden]) true
      = [entryADir, entryHidden, entryBTxt]
    ∧ get_entries (.ok [entryBTxt, entryADir, entryHidden]) false
      = [entryADir, entryBTxt] :=
  c9_listing_scenario [entryBTxt, entryADir, entryHidden] (List.Perm.refl _)

/-- C10: the delete dispatch probes the selection with
`pathlib.Path.is_dir`, which follows symlinks, so a symlink whose target
is a directory takes the recursive `rmtree` branch and never the plain
`unlink` branch. -/
theorem c10_delete_follows_symlink (t : DeleteTarget)
    (hsym : t.isSymlink = true) (htarget : t.targetIsDir = true) :
    delete_branch t = DeleteBranch.rmtree
    ∧ delete_branch t ≠ DeleteBranch.unlink := by
  have hdir : path_is_dir t = true := by
    simp [path_is_dir, hsym, htarget]
  constructor
  · simp [delete_branch, hdir]
  · simp [delete_branch, hdir]

/-- C10 witness: a symlink to a directory (itself not a directory)
dispatches to `rmtree`. -/
theorem c10_delete_follows_symlink_witness :
    delete_branch symlinkToDir = DeleteBranch.rmtree
    ∧ delete_branch symlinkToDir ≠ DeleteBranch.unlink :=
  c10_delete_follows_symlink symlinkToDir rfl rfl

end TuiExplorer
